import Mathlib

/-!
Verification of the Direct Line worker-pool question/answer subsystem of the
repository (src/src/directline/directline_client.py, with the script draft
src/excel_testing.py). The Python code is shallowly embedded: the websocket
is abstracted as the sequence of outcomes the `recv` calls produce together
with the wall-clock readings the loop observes; HTTP calls are abstracted as
their observed outcomes (status codes and payload fields); the asyncio queue
protocol of `workers_processing` is rendered as the ordered trace of the
dispatcher's operations.
-/

namespace DirectLine

/-- One recorded answer: the dict `\x7b"question": question, "answer": message_text\x7d`
appended by `listen_for_messages`. -/
structure Answer where
  question : String
  answer : String
deriving DecidableEq, Repr

/-- One activity dict of an inbound frame, as probed by the listener:
`activity.get("type")`, `activity.get("text", "")` and
`activity.get("from", \x7b\x7d).get("role", ...)`.  `none` models an absent key
(for `role?`: absent `"from"` or absent `"role"`). -/
structure Activity where
  type? : Option String
  text? : Option String
  role? : Option String
deriving DecidableEq, Repr

/-- One element of the `data["activities"]` list. `bad` models an element that
is not a dict, so that `activity.get` raises AttributeError (caught only by
the outer `except Exception` handler of the listen loop). -/
inductive ActItem
  | ok (a : Activity)
  | bad
deriving DecidableEq, Repr

/-- One inbound websocket frame after the decode/parse pipeline of the
listener.  `undecodable`: bytes that raise UnicodeDecodeError;
`unparsable`: text that raises json.JSONDecodeError; `noActivities`: a parsed
JSON dict without an `"activities"` key (also covers parsed strings/lists for
which the membership test is simply false); `activities l`: a parsed dict
whose `"activities"` key holds the list `l`; `badData`: a parsed JSON value
on which the `"activities" in data` membership test (or the subsequent
indexing/iteration) raises TypeError — e.g. a bare JSON number. -/
inductive Frame
  | undecodable
  | unparsable
  | noActivities
  | activities (l : List ActItem)
  | badData
deriving DecidableEq, Repr

/-- Outcome of one `await asyncio.wait_for(websocket.recv(), ...)`:
the bounded wait timed out (asyncio.TimeoutError), a frame arrived, the peer
closed the connection (websockets ConnectionClosed), or some other transport
exception was raised. -/
inductive RecvEvent
  | recvTimeout
  | frame (f : Frame)
  | closed
  | err
deriving DecidableEq, Repr

/-- The scan of one frame's `data["activities"]` list (the inner `for` loop of
`listen_for_messages` in directline_client.py).  Returns the texts appended —
in order, one per activity whose type is `"message"` and whose sender role
(`.get("role", "unknown")`) differs from `"user"` — paired with `true` when
the scan ran to completion, `false` when it stopped at a non-dict element
(the raised AttributeError aborts the whole listen loop, but the texts
already appended stay recorded). -/
def scanTexts : List ActItem → List String × Bool
  | [] => ([], true)
  | ActItem.bad :: _ => ([], false)
  | ActItem.ok a :: rest =>
    if a.type? = some "message" then
      if a.role?.getD "unknown" ≠ "user" then
        let r := scanTexts rest
        (a.text?.getD "" :: r.1, r.2)
      else scanTexts rest
    else scanTexts rest

/-- Whether an activities-list element would be matched by the listener:
a dict whose type is `"message"` and whose role (defaulted to `"unknown"`)
is not `"user"`. -/
def itemMatches : ActItem → Bool
  | ActItem.bad => false
  | ActItem.ok a => decide (a.type? = some "message" ∧ a.role?.getD "unknown" ≠ "user")

/-- Result of `listen_for_messages`: `returned answers remaining` models the
Python function returning `answers` with `remaining` the frames/events never
consumed; `starved answers` marks the cut-off of the modelled event stream
while the loop was still waiting (the real coroutine would still be blocked
in `recv`), carrying the answers accumulated so far. -/
inductive ListenResult
  | returned (answers : List Answer) (remaining : List RecvEvent)
  | starved (answers : List Answer)
deriving DecidableEq, Repr

/-- The answers carried by a `ListenResult`. -/
def answersOf : ListenResult → List Answer
  | ListenResult.returned a _ => a
  | ListenResult.starved a => a

/-- The `while not over` loop of `listen_for_messages`
(directline_client.py lines 182-225).  `clock k` is the value of
`time.time() - start_time` observed at the top of the k-th iteration;
`evs` are the outcomes of the successive `recv` attempts; `acc` is the
`answers` accumulator.  Each iteration first checks
`over = elapsed_time >= timeout` (before any receive), then consumes one
receive outcome: inner-handler exceptions (TimeoutError, JSONDecodeError,
UnicodeDecodeError) `continue`; ConnectionClosed and any other exception are
caught by the handlers wrapping the whole loop, which then returns `answers`;
a frame with activities is scanned, and if the scan appended anything the
`over` flag ends the loop (a scan that raised ends it through the outer
handler, likewise returning the accumulated answers). -/
def listenLoop (q : String) (timeout : ℚ) (clock : ℕ → ℚ) :
    ℕ → List RecvEvent → List Answer → ListenResult
  | k, evs, acc =>
    if timeout ≤ clock k then ListenResult.returned acc evs
    else
      match evs with
      | [] => ListenResult.starved acc
      | e :: rest =>
        match e with
        | RecvEvent.recvTimeout => listenLoop q timeout clock (k + 1) rest acc
        | RecvEvent.closed => ListenResult.returned acc rest
        | RecvEvent.err => ListenResult.returned acc rest
        | RecvEvent.frame Frame.undecodable => listenLoop q timeout clock (k + 1) rest acc
        | RecvEvent.frame Frame.unparsable => listenLoop q timeout clock (k + 1) rest acc
        | RecvEvent.frame Frame.noActivities => listenLoop q timeout clock (k + 1) rest acc
        | RecvEvent.frame Frame.badData => ListenResult.returned acc rest
        | RecvEvent.frame (Frame.activities l) =>
          let r := scanTexts l
          let new := r.1.map (fun t => Answer.mk q t)
          if r.2 then
            if new.isEmpty then listenLoop q timeout clock (k + 1) rest (acc ++ new)
            else ListenResult.returned (acc ++ new) rest
          else ListenResult.returned (acc ++ new) rest

/-- `DirectLineBotClient.listen_for_messages(websocket, question, timeout)`:
the websocket argument is abstracted as the pair (clock readings, receive
outcomes); `answers` starts empty. -/
def listen_for_messages (question : String) (timeout : ℚ) (clock : ℕ → ℚ)
    (evs : List RecvEvent) : ListenResult :=
  listenLoop question timeout clock 0 evs []

/-- The activities scan of the script draft's listener
(excel_testing.py lines 127-141).  The only difference from the class
version: the role is fetched with `.get("role")` (no default) and then a
falsy value — `None` or the empty string — is normalised to `"unknown"`
before the `!= "user"` comparison. -/
def scanTextsDraft : List ActItem → List String × Bool
  | [] => ([], true)
  | ActItem.bad :: _ => ([], false)
  | ActItem.ok a :: rest =>
    if a.type? = some "message" then
      let role :=
        match a.role? with
        | none => "unknown"
        | some s => if s = "" then "unknown" else s
      if role ≠ "user" then
        let r := scanTextsDraft rest
        (a.text?.getD "" :: r.1, r.2)
      else scanTextsDraft rest
    else scanTextsDraft rest

/-- The receive loop of the script draft's `listen_for_messages`
(excel_testing.py lines 94-148): structurally identical to `listenLoop`,
with the draft's activities scan. -/
def listenLoopDraft (q : String) (timeout : ℚ) (clock : ℕ → ℚ) :
    ℕ → List RecvEvent → List Answer → ListenResult
  | k, evs, acc =>
    if timeout ≤ clock k then ListenResult.returned acc evs
    else
      match evs with
      | [] => ListenResult.starved acc
      | e :: rest =>
        match e with
        | RecvEvent.recvTimeout => listenLoopDraft q timeout clock (k + 1) rest acc
        | RecvEvent.closed => ListenResult.returned acc rest
        | RecvEvent.err => ListenResult.returned acc rest
        | RecvEvent.frame Frame.undecodable => listenLoopDraft q timeout clock (k + 1) rest acc
        | RecvEvent.frame Frame.unparsable => listenLoopDraft q timeout clock (k + 1) rest acc
        | RecvEvent.frame Frame.noActivities => listenLoopDraft q timeout clock (k + 1) rest acc
        | RecvEvent.frame Frame.badData => ListenResult.returned acc rest
        | RecvEvent.frame (Frame.activities l) =>
          let r := scanTextsDraft l
          let new := r.1.map (fun t => Answer.mk q t)
          if r.2 then
            if new.isEmpty then listenLoopDraft q timeout clock (k + 1) rest (acc ++ new)
            else ListenResult.returned (acc ++ new) rest
          else ListenResult.returned (acc ++ new) rest

/-- The standalone `listen_for_messages` of excel_testing.py. -/
def listen_for_messages_draft (question : String) (timeout : ℚ) (clock : ℕ → ℚ)
    (evs : List RecvEvent) : ListenResult :=
  listenLoopDraft question timeout clock 0 evs []

/-- The payload of the conversation-creation response, as probed by
`process_question`: `conversation["conversationId"]` and
`conversation["streamUrl"]`; `none` models an absent key (the lookup raises
KeyError). -/
structure ConvPayload where
  conversationId : Option String
  streamUrl : Option String
deriving DecidableEq, Repr

/-- The observed HTTP response to the conversation-creation POST. -/
structure ConvResponse where
  status : ℕ
  payload : ConvPayload
deriving DecidableEq, Repr

/-- Exceptions raised inside the per-question flow.  The source raises bare
`Exception` values with formatted messages; only the raising site matters to
the claims, so the exceptions are rendered as constructors. -/
inductive DLError
  | tokenError
  | conversationError (status : ℕ)
deriving DecidableEq, Repr

/-- `DirectLineBotClient.start_conversation` (directline_client.py lines
76-101): it first awaits `get_direct_line_token` (whose failure propagates),
then POSTs; status 201 returns the parsed payload unchecked, any other
status raises. -/
def start_conversation (tokenOk : Bool) (resp : ConvResponse) :
    Except DLError ConvPayload :=
  if tokenOk = false then Except.error DLError.tokenError
  else if resp.status = 201 then Except.ok resp.payload
  else Except.error (DLError.conversationError resp.status)

/-- The environment one question's processing observes: whether the token
requests succeed (status 200), the conversation-creation response, whether
the websocket connect and the message send succeed, and the socket behaviour
seen by the listener. -/
structure QuestionEnv where
  tokenOk : Bool
  convResp : ConvResponse
  connectOk : Bool
  sendOk : Bool
  clock : ℕ → ℚ
  events : List RecvEvent

/-- `DirectLineBotClient.process_question` (directline_client.py lines
227-251): token, `start_conversation`, `connect(conversation['streamUrl'])`,
`_send_message(conversation['conversationId'], ...)`,
`listen_for_messages(..., timeout=120)`, then `answers.extend(...)` under the
lock.  Every exception (token/conversation failure, KeyError on a missing
payload field, connect or send failure) is caught by the wrapping
`except Exception`, which logs and leaves `answers` unchanged. -/
def process_question (env : QuestionEnv) (question : String)
    (answers : List Answer) : List Answer :=
  match start_conversation env.tokenOk env.convResp with
  | Except.error _ => answers
  | Except.ok payload =>
    match payload.streamUrl with
    | none => answers
    | some _ =>
      if env.connectOk = false then answers
      else
        match payload.conversationId with
        | none => answers
        | some _ =>
          if env.sendOk = false then answers
          else answers ++ answersOf (listen_for_messages question 120 env.clock env.events)

/-- One item dequeued by a worker: the `None` stop sentinel, or a question
together with the environment its processing will observe. -/
inductive QItem
  | sentinel
  | question (q : String) (env : QuestionEnv)

/-- `DirectLineBotClient.worker` (directline_client.py lines 253-277) run
over the sequence of items it dequeues: returns the final shared answers
list, the number of `queue.task_done()` acknowledgements issued, and whether
the worker terminated (it breaks only on the sentinel; an exhausted item
list models a worker still blocked in `queue.get()`).  `process_question`
catches every exception internally, so the worker's own `except` branch is
unreachable; each dequeued item is acknowledged exactly once on every
path. -/
def worker : List QItem → List Answer → List Answer × ℕ × Bool
  | [], acc => (acc, 0, false)
  | QItem.sentinel :: _, acc => (acc, 1, true)
  | QItem.question q env :: rest, acc =>
    let r := worker rest (process_question env q acc)
    (r.1, r.2.1 + 1, r.2.2)

/-- The number of items a worker dequeues from a given item sequence before
stopping: everything up to and including the first sentinel. -/
def consumedCount : List QItem → ℕ
  | [] => 0
  | QItem.sentinel :: _ => 1
  | QItem.question _ _ :: rest => 1 + consumedCount rest

/-- One step of the dispatcher `workers_processing`, in program order. -/
inductive DispatchStep
  | enqueue (q : String)
  | spawnWorkers (n : ℕ)
  | joinQueue
  | enqueueSentinel
  | gatherWorkers
  | saveResults
deriving DecidableEq, Repr

/-- The operation trace of `DirectLineBotClient.workers_processing`
(directline_client.py lines 329-350): enqueue every question, create the
`n_workers` worker tasks, `await queue.join()` (which blocks until every
real item has been acknowledged — the sentinels are not yet in the queue),
enqueue exactly `n_workers` `None` sentinels, `await asyncio.gather(*workers)`,
and finally call `_df_save` only when the shared `answers` list is
non-empty. -/
def workers_processing (questions : List String) (n_workers : ℕ)
    (finalAnswers : List Answer) : List DispatchStep :=
  (questions.map DispatchStep.enqueue)
    ++ [DispatchStep.spawnWorkers n_workers, DispatchStep.joinQueue]
    ++ List.replicate n_workers DispatchStep.enqueueSentinel
    ++ [DispatchStep.gatherWorkers]
    ++ (if finalAnswers.isEmpty then [] else [DispatchStep.saveResults])

/-- Outcome of the result-persistence step. -/
inductive SaveOutcome
  | skipped
  | errorRaised
  | saved
deriving DecidableEq, Repr

/-- `DirectLineBotClient._df_save` (directline_client.py lines 279-300):
raises ValueError only when `answers is None` (the `Option.none` case);
otherwise it builds the DataFrame and writes the file — an empty list is
written without any error, although the docstring promises a ValueError
for an empty list as well. -/
def df_save (answers : Option (List Answer)) : SaveOutcome :=
  match answers with
  | none => SaveOutcome.errorRaised
  | some _ => SaveOutcome.saved

/-- The persistence tail of `workers_processing` (lines 349-350):
`if answers: self._df_save(answers, output_path)` — with an empty `answers`
list the guard is false and `_df_save` is never called at all. -/
def savePhase (answers : List Answer) : SaveOutcome :=
  if answers.isEmpty then SaveOutcome.skipped else df_save (some answers)

/-- The whole batch's shared `answers` list for one scheduling of the
workers (the lock serialises the `extend` calls; content is
interleaving-independent, order is not): each (question, environment) pair
of the batch contributes its `process_question` extension in turn. -/
def batch_results (batch : List (String × QuestionEnv)) : List Answer :=
  batch.foldl (fun acc p => process_question p.2 p.1 acc) []

/-- A receive outcome that appends nothing to the listener's answers: any
event except a frame whose activities scan matches some activity. -/
def eventAddsNothing : RecvEvent → Bool
  | RecvEvent.frame (Frame.activities l) => (scanTexts l).1.isEmpty
  | _ => true

/-- A receive outcome whose frame (if any) carries at most one matching
(non-self message) activity. -/
def frameMatchBound : RecvEvent → Bool
  | RecvEvent.frame (Frame.activities l) => decide (l.countP itemMatches ≤ 1)
  | _ => true

theorem scanTexts_cons_skip (a : Activity) (rest : List ActItem)
    (h : itemMatches (ActItem.ok a) = false) :
    scanTexts (ActItem.ok a :: rest) = scanTexts rest := by
  simp only [itemMatches, decide_eq_false_iff_not, not_and, ne_eq, not_not] at h
  by_cases ht : a.type? = some "message"
  · simp [scanTexts, ht, h ht]
  · simp [scanTexts, ht]

theorem scanTexts_cons_match (a : Activity) (rest : List ActItem)
    (h : itemMatches (ActItem.ok a) = true) :
    scanTexts (ActItem.ok a :: rest)
      = (a.text?.getD "" :: (scanTexts rest).1, (scanTexts rest).2) := by
  simp only [itemMatches, decide_eq_true_eq] at h
  simp [scanTexts, h.1, h.2]

theorem scanTexts_append_skip (l₀ l₁ : List ActItem)
    (h : ∀ x ∈ l₀, x ≠ ActItem.bad ∧ itemMatches x = false) :
    scanTexts (l₀ ++ l₁) = scanTexts l₁ := by
  induction l₀ with
  | nil => rfl
  | cons x t ih =>
    have hx := h x (by simp)
    cases x with
    | bad => exact absurd rfl hx.1
    | ok a =>
      rw [List.cons_append, scanTexts_cons_skip a _ hx.2]
      exact ih (fun y hy => h y (by simp [hy]))

theorem scanTexts_length_le (l : List ActItem) :
    (scanTexts l).1.length ≤ l.countP itemMatches := by
  induction l with
  | nil => simp [scanTexts]
  | cons x t ih =>
    cases x with
    | bad => simp [scanTexts]
    | ok a =>
      by_cases h : itemMatches (ActItem.ok a) = true
      · rw [scanTexts_cons_match a t h, List.countP_cons_of_pos _ _ h]
        simpa using Nat.succ_le_succ ih
      · rw [scanTexts_cons_skip a t (by simpa using h),
          List.countP_cons_of_neg _ _ (by simpa using h)]
        exact ih

theorem listenLoop_deadline (q : String) (T : ℚ) (clock : ℕ → ℚ) (k : ℕ)
    (evs : List RecvEvent) (acc : List Answer) (h : T ≤ clock k) :
    listenLoop q T clock k evs acc = ListenResult.returned acc evs := by
  rw [listenLoop.eq_def]
  exact if_pos h

theorem listenLoop_step_skip (q : String) (T : ℚ) (clock : ℕ → ℚ) (k : ℕ)
    (e : RecvEvent) (rest : List RecvEvent) (acc : List Answer)
    (hk : clock k < T)
    (he : e = RecvEvent.recvTimeout ∨ e = RecvEvent.frame Frame.undecodable ∨
          e = RecvEvent.frame Frame.unparsable ∨ e = RecvEvent.frame Frame.noActivities) :
    listenLoop q T clock k (e :: rest) acc = listenLoop q T clock (k + 1) rest acc := by
  rcases he with h | h | h | h <;> subst h <;>
    (rw [listenLoop.eq_def]; exact if_neg (not_le.mpr hk))

theorem listenLoop_step_closed (q : String) (T : ℚ) (clock : ℕ → ℚ) (k : ℕ)
    (rest : List RecvEvent) (acc : List Answer) (hk : clock k < T) :
    listenLoop q T clock k (RecvEvent.closed :: rest) acc
      = ListenResult.returned acc rest := by
  rw [listenLoop.eq_def]
  exact if_neg (not_le.mpr hk)

theorem listenLoop_step_err (q : String) (T : ℚ) (clock : ℕ → ℚ) (k : ℕ)
    (rest : List RecvEvent) (acc : List Answer) (hk : clock k < T) :
    listenLoop q T clock k (RecvEvent.err :: rest) acc
      = ListenResult.returned acc rest := by
  rw [listenLoop.eq_def]
  exact if_neg (not_le.mpr hk)

theorem listenLoop_step_badData (q : String) (T : ℚ) (clock : ℕ → ℚ) (k : ℕ)
    (rest : List RecvEvent) (acc : List Answer) (hk : clock k < T) :
    listenLoop q T clock k (RecvEvent.frame Frame.badData :: rest) acc
      = ListenResult.returned acc rest := by
  rw [listenLoop.eq_def]
  exact if_neg (not_le.mpr hk)

theorem listenLoop_step_frame (q : String) (T : ℚ) (clock : ℕ → ℚ) (k : ℕ)
    (l : List ActItem) (rest : List RecvEvent) (acc : List Answer)
    (hk : clock k < T) :
    listenLoop q T clock k (RecvEvent.frame (Frame.activities l) :: rest) acc
      = (if (scanTexts l).2 then
          if ((scanTexts l).1.map (fun t => Answer.mk q t)).isEmpty then
            listenLoop q T clock (k + 1) rest
              (acc ++ (scanTexts l).1.map (fun t => Answer.mk q t))
          else ListenResult.returned
            (acc ++ (scanTexts l).1.map (fun t => Answer.mk q t)) rest
        else ListenResult.returned
          (acc ++ (scanTexts l).1.map (fun t => Answer.mk q t)) rest) := by
  rw [listenLoop.eq_def]
  exact if_neg (not_le.mpr hk)

theorem listenLoop_step_match (q : String) (T : ℚ) (clock : ℕ → ℚ) (k : ℕ)
    (l : List ActItem) (rest : List RecvEvent) (acc : List Answer)
    (hk : clock k < T) (hne : (scanTexts l).1 ≠ []) :
    listenLoop q T clock k (RecvEvent.frame (Frame.activities l) :: rest) acc
      = ListenResult.returned
          (acc ++ (scanTexts l).1.map (fun t => Answer.mk q t)) rest := by
  rw [listenLoop_step_frame q T clock k l rest acc hk]
  have hmap : ((scanTexts l).1.map (fun t => Answer.mk q t)).isEmpty = false := by
    cases hsc : (scanTexts l).1 with
    | nil => exact absurd hsc hne
    | cons x t => simp [hsc]
  split
  · rw [hmap]; simp
  · rfl

theorem listenLoop_starve (q : String) (T : ℚ) (clock : ℕ → ℚ) (k : ℕ)
    (acc : List Answer) (hk : ¬ T ≤ clock k) :
    listenLoop q T clock k [] acc = ListenResult.starved acc := by
  rw [listenLoop.eq_def]
  exact if_neg hk

theorem listenLoop_noAdd (q : String) (T : ℚ) (clock : ℕ → ℚ) :
    ∀ (evs : List RecvEvent) (k : ℕ) (acc : List Answer),
      (∀ e ∈ evs, eventAddsNothing e = true) →
      answersOf (listenLoop q T clock k evs acc) = acc := by
  intro evs
  induction evs with
  | nil =>
    intro k acc _
    by_cases hk : T ≤ clock k
    · rw [listenLoop_deadline q T clock k [] acc hk]
      rfl
    · rw [listenLoop_starve q T clock k acc hk]
      rfl
  | cons e rest ih =>
    intro k acc h
    by_cases hk : T ≤ clock k
    · rw [listenLoop_deadline q T clock k _ acc hk]
      rfl
    · have hk' : clock k < T := not_le.mp hk
      have hrest : ∀ x ∈ rest, eventAddsNothing x = true :=
        fun x hx => h x (List.mem_cons_of_mem _ hx)
      cases e with
      | recvTimeout =>
        rw [listenLoop_step_skip q T clock k _ rest acc hk' (Or.inl rfl)]
        exact ih (k + 1) acc hrest
      | closed => rw [listenLoop_step_closed q T clock k rest acc hk']; rfl
      | err => rw [listenLoop_step_err q T clock k rest acc hk']; rfl
      | frame f =>
        cases f with
        | undecodable =>
          rw [listenLoop_step_skip q T clock k _ rest acc hk' (Or.inr (Or.inl rfl))]
          exact ih (k + 1) acc hrest
        | unparsable =>
          rw [listenLoop_step_skip q T clock k _ rest acc hk' (Or.inr (Or.inr (Or.inl rfl)))]
          exact ih (k + 1) acc hrest
        | noActivities =>
          rw [listenLoop_step_skip q T clock k _ rest acc hk' (Or.inr (Or.inr (Or.inr rfl)))]
          exact ih (k + 1) acc hrest
        | badData => rw [listenLoop_step_badData q T clock k rest acc hk']; rfl
        | activities l =>
          have hl : (scanTexts l).1.isEmpty = true := by
            simpa [eventAddsNothing] using h _ (List.mem_cons_self _ _)
          have hnil : (scanTexts l).1 = [] := by
            cases hsc : (scanTexts l).1 with
            | nil => rfl
            | cons x t => rw [hsc] at hl; simp at hl
          rw [listenLoop_step_frame q T clock k l rest acc hk', hnil]
          simp only [List.map_nil, List.append_nil, List.isEmpty_nil, if_true]
          split
          · exact ih (k + 1) acc hrest
          · rfl

theorem listenLoop_length_le (q : String) (T : ℚ) (clock : ℕ → ℚ) :
    ∀ (evs : List RecvEvent) (k : ℕ) (acc : List Answer),
      (∀ e ∈ evs, frameMatchBound e = true) →
      (answersOf (listenLoop q T clock k evs acc)).length ≤ acc.length + 1 := by
  intro evs
  induction evs with
  | nil =>
    intro k acc _
    by_cases hk : T ≤ clock k
    · rw [listenLoop_deadline q T clock k [] acc hk]
      simp [answersOf]
    · rw [listenLoop_starve q T clock k acc hk]
      simp [answersOf]
  | cons e rest ih =>
    intro k acc h
    by_cases hk : T ≤ clock k
    · rw [listenLoop_deadline q T clock k _ acc hk]; simp [answersOf]
    · have hk' : clock k < T := not_le.mp hk
      have hrest : ∀ x ∈ rest, frameMatchBound x = true :=
        fun x hx => h x (List.mem_cons_of_mem _ hx)
      cases e with
      | recvTimeout =>
        rw [listenLoop_step_skip q T clock k _ rest acc hk' (Or.inl rfl)]
        exact ih (k + 1) acc hrest
      | closed =>
        rw [listenLoop_step_closed q T clock k rest acc hk']; simp [answersOf]
      | err =>
        rw [listenLoop_step_err q T clock k rest acc hk']; simp [answersOf]
      | frame f =>
        cases f with
        | undecodable =>
          rw [listenLoop_step_skip q T clock k _ rest acc hk' (Or.inr (Or.inl rfl))]
          exact ih (k + 1) acc hrest
        | unparsable =>
          rw [listenLoop_step_skip q T clock k _ rest acc hk' (Or.inr (Or.inr (Or.inl rfl)))]
          exact ih (k + 1) acc hrest
        | noActivities =>
          rw [listenLoop_step_skip q T clock k _ rest acc hk' (Or.inr (Or.inr (Or.inr rfl)))]
          exact ih (k + 1) acc hrest
        | badData =>
          rw [listenLoop_step_badData q T clock k rest acc hk']; simp [answersOf]
        | activities l =>
          have hcount : l.countP itemMatches ≤ 1 := by
            have := h _ (List.mem_cons_self _ _)
            simpa [frameMatchBound] using this
          have hlen : ((scanTexts l).1.map (fun t => Answer.mk q t)).length ≤ 1 := by
            rw [List.length_map]
            exact le_trans (scanTexts_length_le l) hcount
          rw [listenLoop_step_frame q T clock k l rest acc hk']
          split
          · split
            · rename_i hemp
              have hnil : (scanTexts l).1.map (fun t => Answer.mk q t) = [] := by
                cases hsc : (scanTexts l).1.map (fun t => Answer.mk q t) with
                | nil => rfl
                | cons x t => rw [hsc] at hemp; simp at hemp
              rw [hnil, List.append_nil]
              exact ih (k + 1) acc hrest
            · simpa [answersOf] using Nat.add_le_add_left hlen acc.length
          · simpa [answersOf] using Nat.add_le_add_left hlen acc.length

theorem scanTextsDraft_eq : ∀ l : List ActItem, scanTextsDraft l = scanTexts l := by
  intro l
  induction l with
  | nil => rfl
  | cons x t ih =>
    cases x with
    | bad => rfl
    | ok a =>
      by_cases ht : a.type? = some "message"
      · cases hr : a.role? with
        | none => simp [scanTextsDraft, scanTexts, ht, hr, ih]
        | some s =>
          by_cases hs : s = ""
          · subst hs
            simp [scanTextsDraft, scanTexts, ht, hr, ih]
          · simp [scanTextsDraft, scanTexts, ht, hr, hs, ih]
      · simp [scanTextsDraft, scanTexts, ht, ih]

theorem listenLoopDraft_deadline (q : String) (T : ℚ) (clock : ℕ → ℚ) (k : ℕ)
    (evs : List RecvEvent) (acc : List Answer) (h : T ≤ clock k) :
    listenLoopDraft q T clock k evs acc = ListenResult.returned acc evs := by
  rw [listenLoopDraft.eq_def]
  exact if_pos h

theorem listenLoopDraft_step (q : String) (T : ℚ) (clock : ℕ → ℚ) (k : ℕ)
    (e : RecvEvent) (rest : List RecvEvent) (acc : List Answer)
    (hk : clock k < T) :
    listenLoopDraft q T clock k (e :: rest) acc
      = (match e with
        | RecvEvent.recvTimeout => listenLoopDraft q T clock (k + 1) rest acc
        | RecvEvent.closed => ListenResult.returned acc rest
        | RecvEvent.err => ListenResult.returned acc rest
        | RecvEvent.frame Frame.undecodable => listenLoopDraft q T clock (k + 1) rest acc
        | RecvEvent.frame Frame.unparsable => listenLoopDraft q T clock (k + 1) rest acc
        | RecvEvent.frame Frame.noActivities => listenLoopDraft q T clock (k + 1) rest acc
        | RecvEvent.frame Frame.badData => ListenResult.returned acc rest
        | RecvEvent.frame (Frame.activities l) =>
          let r := scanTextsDraft l
          let new := r.1.map (fun t => Answer.mk q t)
          if r.2 then
            if new.isEmpty then listenLoopDraft q T clock (k + 1) rest (acc ++ new)
            else ListenResult.returned (acc ++ new) rest
          else ListenResult.returned (acc ++ new) rest) := by
  rw [listenLoopDraft.eq_def]
  exact if_neg (not_le.mpr hk)

theorem listenLoop_step (q : String) (T : ℚ) (clock : ℕ → ℚ) (k : ℕ)
    (e : RecvEvent) (rest : List RecvEvent) (acc : List Answer)
    (hk : clock k < T) :
    listenLoop q T clock k (e :: rest) acc
      = (match e with
        | RecvEvent.recvTimeout => listenLoop q T clock (k + 1) rest acc
        | RecvEvent.closed => ListenResult.returned acc rest
        | RecvEvent.err => ListenResult.returned acc rest
        | RecvEvent.frame Frame.undecodable => listenLoop q T clock (k + 1) rest acc
        | RecvEvent.frame Frame.unparsable => listenLoop q T clock (k + 1) rest acc
        | RecvEvent.frame Frame.noActivities => listenLoop q T clock (k + 1) rest acc
        | RecvEvent.frame Frame.badData => ListenResult.returned acc rest
        | RecvEvent.frame (Frame.activities l) =>
          let r := scanTexts l
          let new := r.1.map (fun t => Answer.mk q t)
          if r.2 then
            if new.isEmpty then listenLoop q T clock (k + 1) rest (acc ++ new)
            else ListenResult.returned (acc ++ new) rest
          else ListenResult.returned (acc ++ new) rest) := by
  rw [listenLoop.eq_def]
  exact if_neg (not_le.mpr hk)

theorem listenLoopDraft_starve (q : String) (T : ℚ) (clock : ℕ → ℚ) (k : ℕ)
    (acc : List Answer) (hk : ¬ T ≤ clock k) :
    listenLoopDraft q T clock k [] acc = ListenResult.starved acc := by
  rw [listenLoopDraft.eq_def]
  exact if_neg hk

theorem listenLoopDraft_eq (q : String) (T : ℚ) (clock : ℕ → ℚ) :
    ∀ (evs : List RecvEvent) (k : ℕ) (acc : List Answer),
      listenLoopDraft q T clock k evs acc = listenLoop q T clock k evs acc := by
  intro evs
  induction evs with
  | nil =>
    intro k acc
    by_cases hk : T ≤ clock k
    · rw [listenLoopDraft_deadline q T clock k [] acc hk,
        listenLoop_deadline q T clock k [] acc hk]
    · rw [listenLoopDraft_starve q T clock k acc hk,
        listenLoop_starve q T clock k acc hk]
  | cons e rest ih =>
    intro k acc
    by_cases hk : T ≤ clock k
    · rw [listenLoopDraft_deadline q T clock k _ acc hk,
        listenLoop_deadline q T clock k _ acc hk]
    · have hk' : clock k < T := not_le.mp hk
      rw [listenLoopDraft_step q T clock k e rest acc hk',
        listenLoop_step q T clock k e rest acc hk']
      cases e with
      | recvTimeout => exact ih (k + 1) acc
      | closed => rfl
      | err => rfl
      | frame f =>
        cases f with
        | undecodable => exact ih (k + 1) acc
        | unparsable => exact ih (k + 1) acc
        | noActivities => exact ih (k + 1) acc
        | badData => rfl
        | activities l =>
          simp only [scanTextsDraft_eq l]
          split
          · split
            · exact ih (k + 1) (acc ++ (scanTexts l).1.map (fun t => Answer.mk q t))
            · rfl
          · rfl

theorem worker_acks : ∀ (items : List QItem) (acc : List Answer),
    (worker items acc).2.1 = consumedCount items := by
  intro items
  induction items with
  | nil => intro acc; rfl
  | cons x t ih =>
    intro acc
    cases x with
    | sentinel => rfl
    | question q env =>
      show (worker t (process_question env q acc)).2.1 + 1 = 1 + consumedCount t
      rw [ih]
      exact Nat.add_comm _ _

theorem worker_stop_iff : ∀ (items : List QItem) (acc : List Answer),
    ((worker items acc).2.2 = true ↔ QItem.sentinel ∈ items) := by
  intro items
  induction items with
  | nil => intro acc; simp [worker]
  | cons x t ih =>
    intro acc
    cases x with
    | sentinel => simp [worker]
    | question q env =>
      show ((worker t (process_question env q acc)).2.2 = true ↔ _)
      rw [ih]
      simp

theorem start_conversation_ok_payload (tok : Bool) (resp : ConvResponse)
    (p : ConvPayload) (h : start_conversation tok resp = Except.ok p) :
    p = resp.payload := by
  unfold start_conversation at h
  split at h
  · simp at h
  · split at h
    · simp at h
      exact h.symm
    · simp at h

theorem process_question_missing_field (env : QuestionEnv) (q : String)
    (ans : List Answer)
    (h : env.convResp.payload.streamUrl = none ∨
         env.convResp.payload.conversationId = none) :
    process_question env q ans = ans := by
  cases hsc : start_conversation env.tokenOk env.convResp with
  | error e => simp [process_question, hsc]
  | ok payload =>
    have hp := start_conversation_ok_payload _ _ _ hsc
    subst hp
    rcases h with h | h
    · simp [process_question, hsc, h]
    · cases hsu : env.convResp.payload.streamUrl with
      | none => simp [process_question, hsc, hsu]
      | some u => simp [process_question, hsc, hsu, h]

theorem process_question_token_fail (env : QuestionEnv) (q : String)
    (ans : List Answer) (h : env.tokenOk = false) :
    process_question env q ans = ans := by
  unfold process_question start_conversation
  simp [h]

theorem process_question_length_le (env : QuestionEnv) (q : String)
    (ans : List Answer)
    (h : ∀ e ∈ env.events, frameMatchBound e = true) :
    (process_question env q ans).length ≤ ans.length + 1 := by
  unfold process_question
  split
  · exact Nat.le_succ _
  · split
    · exact Nat.le_succ _
    · split
      · exact Nat.le_succ _
      · split
        · exact Nat.le_succ _
        · split
          · exact Nat.le_succ _
          · rw [List.length_append]
            have hb := listenLoop_length_le q 120 env.clock env.events 0 [] h
            simp only [List.length_nil, Nat.zero_add] at hb
            exact Nat.add_le_add_left hb ans.length

theorem batch_foldl_length_le :
    ∀ (batch : List (String × QuestionEnv)) (acc : List Answer),
      (∀ p ∈ batch, ∀ e ∈ p.2.events, frameMatchBound e = true) →
      (batch.foldl (fun a p => process_question p.2 p.1 a) acc).length
        ≤ acc.length + batch.length := by
  intro batch
  induction batch with
  | nil => intro acc _; simp
  | cons p t ih =>
    intro acc h
    rw [List.foldl_cons]
    have h1 := process_question_length_le p.2 p.1 acc (h p (List.mem_cons_self p t))
    have h2 := ih (process_question p.2 p.1 acc)
      (fun x hx => h x (List.mem_cons_of_mem p hx))
    calc (t.foldl (fun a x => process_question x.2 x.1 a)
            (process_question p.2 p.1 acc)).length
        ≤ (process_question p.2 p.1 acc).length + t.length := h2
      _ ≤ (acc.length + 1) + t.length := Nat.add_le_add_right h1 _
      _ = acc.length + (p :: t).length := by
          rw [List.length_cons]
          omega

/-- Claim C9: the standalone listener of the script draft and the static
method listener of the client class are extensionally equal — for every
question, timeout, clock behaviour and sequence of receive outcomes they
return the same result (in particular the same list of question/answer
records): the draft normalisation of a falsy role to "unknown" never changes
the match decision. -/
theorem C9_draft_client_listener_equal (question : String) (T : ℚ)
    (clock : ℕ → ℚ) (evs : List RecvEvent) :
    listen_for_messages_draft question T clock evs
      = listen_for_messages question T clock evs :=
  listenLoopDraft_eq question T clock evs 0 []

/-- Claim C10: calling the listener with a timeout ≤ 0 returns the empty
list immediately: the deadline check (`elapsed_time >= timeout` with the
first, nonnegative clock reading) precedes the first receive attempt, so
every event of the stream is left unconsumed. -/
theorem C10_nonpositive_timeout_immediate (question : String) (T : ℚ)
    (clock : ℕ → ℚ) (evs : List RecvEvent) (hT : T ≤ 0) (h0 : 0 ≤ clock 0) :
    listen_for_messages question T clock evs = ListenResult.returned [] evs := by
  unfold listen_for_messages
  exact listenLoop_deadline question T clock 0 evs [] (le_trans hT h0)

/-- Witness for C10 at timeout -1 with a pending bot-reply frame: the frame
is never consumed. -/
theorem C10_nonpositive_timeout_immediate_witness :
    listen_for_messages "ping" (-1) (fun _ => 0)
        [RecvEvent.frame (Frame.activities
          [ActItem.ok ⟨some "message", some "late", some "bot"⟩])]
      = ListenResult.returned []
          [RecvEvent.frame (Frame.activities
            [ActItem.ok ⟨some "message", some "late", some "bot"⟩])] :=
  C10_nonpositive_timeout_immediate "ping" (-1) (fun _ => 0) _
    (by norm_num) (le_refl 0)

/-- Claim C8 (code bug): with an empty final answers list the persistence
step is silently skipped — the `if answers:` guard of `workers_processing`
never calls `_df_save`, no save step appears in the dispatch trace, and
`_df_save` itself would not raise on an empty list either (its docstring
promises a ValueError for an empty list, but the code only checks
`answers is None`). -/
theorem C8_empty_resultset_silently_skipped :
    savePhase [] = SaveOutcome.skipped
    ∧ df_save (some []) = SaveOutcome.saved
    ∧ DispatchStep.saveResults ∉ workers_processing ["What is my enrollment status?"] 20 [] := by
  refine ⟨rfl, rfl, ?_⟩
  decide

/-- Claim C6: the listener never propagates a transport exception — a peer
close notification or any other receive exception makes it return the
answers collected so far; reaching the deadline returns the collected
answers; and a run whose events never match returns the empty list as a
normal outcome. -/
theorem C6_listener_never_propagates :
    (∀ (q : String) (T : ℚ) (clock : ℕ → ℚ) (k : ℕ) (rest : List RecvEvent)
        (acc : List Answer), clock k < T →
        listenLoop q T clock k (RecvEvent.closed :: rest) acc
          = ListenResult.returned acc rest)
    ∧ (∀ (q : String) (T : ℚ) (clock : ℕ → ℚ) (k : ℕ) (rest : List RecvEvent)
        (acc : List Answer), clock k < T →
        listenLoop q T clock k (RecvEvent.err :: rest) acc
          = ListenResult.returned acc rest)
    ∧ (∀ (q : String) (T : ℚ) (clock : ℕ → ℚ) (k : ℕ) (evs : List RecvEvent)
        (acc : List Answer), T ≤ clock k →
        listenLoop q T clock k evs acc = ListenResult.returned acc evs)
    ∧ (∀ (q : String) (T : ℚ) (clock : ℕ → ℚ) (evs : List RecvEvent),
        (∀ e ∈ evs, eventAddsNothing e = true) →
        answersOf (listen_for_messages q T clock evs) = []) :=
  ⟨fun q T c k rest acc hk => listenLoop_step_closed q T c k rest acc hk,
   fun q T c k rest acc hk => listenLoop_step_err q T c k rest acc hk,
   fun q T c k evs acc hk => listenLoop_deadline q T c k evs acc hk,
   fun q T c evs h => listenLoop_noAdd q T c evs 0 [] h⟩

/-- Witness for C6: a close, an error, a deadline hit and a matchless run,
each at concrete inputs. -/
theorem C6_listener_never_propagates_witness :
    listenLoop "q" 1 (fun _ => 0) 0 [RecvEvent.closed] [] = ListenResult.returned [] []
    ∧ listenLoop "q" 1 (fun _ => 0) 0 [RecvEvent.err] [] = ListenResult.returned [] []
    ∧ listenLoop "q" 1 (fun _ => 5) 0 [RecvEvent.recvTimeout] []
        = ListenResult.returned [] [RecvEvent.recvTimeout]
    ∧ answersOf (listen_for_messages "q" 1 (fun _ => 0)
        [RecvEvent.frame Frame.unparsable]) = [] := by
  have h := C6_listener_never_propagates
  exact ⟨h.1 "q" 1 (fun _ => 0) 0 [] [] (by norm_num),
    h.2.1 "q" 1 (fun _ => 0) 0 [] [] (by norm_num),
    h.2.2.1 "q" 1 (fun _ => 5) 0 [RecvEvent.recvTimeout] [] (by norm_num),
    h.2.2.2 "q" 1 (fun _ => 0) [RecvEvent.frame Frame.unparsable] (by decide)⟩

/-- Counterexample to claim C5 as stated: the frame `5` parses as JSON and
has no "activities" key, yet it terminates the listen loop — the membership
test raises TypeError, the outer handler catches it and the function returns
at once, leaving the following genuine bot reply unconsumed (second
conjunct: without the bad frame the same stream yields the reply). -/
theorem C5_counterexample :
    listen_for_messages "q" 10 (fun _ => 0)
        [RecvEvent.frame Frame.badData,
         RecvEvent.frame (Frame.activities
           [ActItem.ok ⟨some "message", some "R", some "bot"⟩])]
      = ListenResult.returned []
          [RecvEvent.frame (Frame.activities
            [ActItem.ok ⟨some "message", some "R", some "bot"⟩])]
    ∧ listen_for_messages "q" 10 (fun _ => 0)
        [RecvEvent.frame (Frame.activities
          [ActItem.ok ⟨some "message", some "R", some "bot"⟩])]
      = ListenResult.returned [⟨"q", "R"⟩] [] := by
  exact ⟨by decide, by decide⟩

/-- Claim C5 as amended: an inbound frame that is not valid UTF-8, is not
valid JSON, or parses to a JSON dict without an "activities" key never
terminates the listen loop, never raises to the caller and never contributes
an answer — the loop just continues with the same accumulator.  (A frame
parsing to a non-container JSON value is excluded: it aborts the loop
through the outer exception handler, as the counterexample shows.) -/
theorem C5_amended_malformed_frames_skipped (q : String) (T : ℚ)
    (clock : ℕ → ℚ) (k : ℕ) (f : Frame) (rest : List RecvEvent)
    (acc : List Answer)
    (hf : f = Frame.undecodable ∨ f = Frame.unparsable ∨ f = Frame.noActivities)
    (hk : clock k < T) :
    listenLoop q T clock k (RecvEvent.frame f :: rest) acc
      = listenLoop q T clock (k + 1) rest acc := by
  refine listenLoop_step_skip q T clock k _ rest acc hk ?_
  rcases hf with h | h | h <;> rw [h] <;> simp

/-- Witness for the amended C5 at a concrete unparsable frame. -/
theorem C5_amended_malformed_frames_skipped_witness :
    listenLoop "q" 10 (fun _ => 0) 0 [RecvEvent.frame Frame.unparsable] []
      = listenLoop "q" 10 (fun _ => 0) 1 [] [] :=
  C5_amended_malformed_frames_skipped "q" 10 (fun _ => 0) 0 Frame.unparsable [] []
    (Or.inr (Or.inl rfl)) (by norm_num)

/-- Claim C2: the listener skips every activity whose type is not
"message"; skips every message activity whose sender role is "user"; treats
an absent or empty sender role as not-self, so such an activity is matched
and its text recorded; the first non-self message activity after a non-bad,
non-matching prefix supplies the first recorded text; a frame whose scan
matched makes the loop return at once, consuming no further frames; and a
role=user echo followed by a real bot reply yields only the real bot
reply. -/
theorem C2_listener_matching :
    (∀ (a : Activity) (rest : List ActItem), a.type? ≠ some "message" →
        scanTexts (ActItem.ok a :: rest) = scanTexts rest)
    ∧ (∀ (a : Activity) (rest : List ActItem), a.role? = some "user" →
        scanTexts (ActItem.ok a :: rest) = scanTexts rest)
    ∧ (∀ (a : Activity) (rest : List ActItem), a.type? = some "message" →
        (a.role? = none ∨ a.role? = some "") →
        scanTexts (ActItem.ok a :: rest)
          = (a.text?.getD "" :: (scanTexts rest).1, (scanTexts rest).2))
    ∧ (∀ (l₀ l₁ : List ActItem) (a : Activity),
        (∀ x ∈ l₀, x ≠ ActItem.bad ∧ itemMatches x = false) →
        itemMatches (ActItem.ok a) = true →
        (scanTexts (l₀ ++ ActItem.ok a :: l₁)).1
          = a.text?.getD "" :: (scanTexts l₁).1)
    ∧ (∀ (q : String) (T : ℚ) (clock : ℕ → ℚ) (k : ℕ) (l : List ActItem)
        (rest : List RecvEvent) (acc : List Answer),
        clock k < T → (scanTexts l).1 ≠ [] →
        listenLoop q T clock k (RecvEvent.frame (Frame.activities l) :: rest) acc
          = ListenResult.returned
              (acc ++ (scanTexts l).1.map (fun t => Answer.mk q t)) rest)
    ∧ listen_for_messages "Q" 120 (fun _ => 0)
        [RecvEvent.frame (Frame.activities
          [ActItem.ok ⟨some "message", some "Q", some "user"⟩,
           ActItem.ok ⟨some "message", some "real bot reply", none⟩])]
      = ListenResult.returned [⟨"Q", "real bot reply"⟩] [] := by
  refine ⟨?_, ?_, ?_, ?_, ?_, by decide⟩
  · intro a rest h
    simp [scanTexts, h]
  · intro a rest h
    by_cases ht : a.type? = some "message"
    · simp [scanTexts, ht, h]
    · simp [scanTexts, ht]
  · intro a rest ht hr
    refine scanTexts_cons_match a rest ?_
    rcases hr with h | h <;> simp [itemMatches, ht, h]
  · intro l₀ l₁ a hskip hm
    rw [scanTexts_append_skip l₀ _ hskip, scanTexts_cons_match a l₁ hm]
  · intro q T clock k l rest acc hk hne
    exact listenLoop_step_match q T clock k l rest acc hk hne

/-- Witness for C2: each matching rule applied at a concrete activity, and
the stop-after-match rule at a concrete frame followed by an unconsumed
close event. -/
theorem C2_listener_matching_witness :
    scanTexts [ActItem.ok ⟨some "typing", some "x", some "bot"⟩] = scanTexts []
    ∧ scanTexts [ActItem.ok ⟨some "message", some "echo", some "user"⟩] = scanTexts []
    ∧ scanTexts [ActItem.ok ⟨some "message", some "noRole", none⟩]
        = ("noRole" :: (scanTexts []).1, (scanTexts []).2)
    ∧ (scanTexts [ActItem.ok ⟨some "message", some "echo", some "user"⟩,
        ActItem.ok ⟨some "message", some "reply", some "bot"⟩]).1
        = "reply" :: (scanTexts []).1
    ∧ listenLoop "Q" 120 (fun _ => 0) 0
        [RecvEvent.frame (Frame.activities
          [ActItem.ok ⟨some "message", some "R", some "bot"⟩]),
         RecvEvent.closed] []
        = ListenResult.returned
            ([] ++ (scanTexts [ActItem.ok ⟨some "message", some "R", some "bot"⟩]).1.map
              (fun t => Answer.mk "Q" t)) [RecvEvent.closed] := by
  have h := C2_listener_matching
  exact ⟨h.1 _ [] (by decide),
    h.2.1 _ [] rfl,
    h.2.2.1 _ [] rfl (Or.inl rfl),
    h.2.2.2.1 [ActItem.ok ⟨some "message", some "echo", some "user"⟩] []
      ⟨some "message", some "reply", some "bot"⟩ (by decide) (by decide),
    h.2.2.2.2.1 "Q" 120 (fun _ => 0) 0 _ [RecvEvent.closed] []
      (by norm_num) (by decide)⟩

/-- Claim C4: `start_conversation` fails for any response status other than
201 (raising what the design calls a ConversationError); a successful start
with a missing conversation id or stream URL is fatal to that question only
— `process_question` catches the KeyError and leaves the shared answers
unchanged — and the worker moves on to the remaining queue items. -/
theorem C4_start_conversation_contract :
    (∀ resp : ConvResponse, resp.status ≠ 201 →
        start_conversation true resp
          = Except.error (DLError.conversationError resp.status))
    ∧ (∀ (env : QuestionEnv) (q : String) (ans : List Answer),
        env.convResp.payload.streamUrl = none ∨
          env.convResp.payload.conversationId = none →
        process_question env q ans = ans)
    ∧ (∀ (env : QuestionEnv) (q : String) (rest : List QItem) (acc : List Answer),
        env.convResp.payload.streamUrl = none ∨
          env.convResp.payload.conversationId = none →
        worker (QItem.question q env :: rest) acc
          = ((worker rest acc).1, (worker rest acc).2.1 + 1, (worker rest acc).2.2)) := by
  refine ⟨?_, ?_, ?_⟩
  · intro resp h
    unfold start_conversation
    rw [if_neg (by simp), if_neg h]
  · exact fun env q ans h => process_question_missing_field env q ans h
  · intro env q rest acc h
    have hp := process_question_missing_field env q acc h
    simp [worker, hp]

/-- Witness for C4: a 403 status, a missing stream URL and a missing
conversation id at concrete responses. -/
theorem C4_start_conversation_contract_witness :
    start_conversation true ⟨403, ⟨some "c", some "s"⟩⟩
        = Except.error (DLError.conversationError 403)
    ∧ process_question ⟨true, ⟨201, ⟨some "c", none⟩⟩, true, true, fun _ => 0, []⟩ "q" [] = []
    ∧ worker [QItem.question "q" ⟨true, ⟨201, ⟨none, some "s"⟩⟩, true, true, fun _ => 0, []⟩] []
        = ((worker [] []).1, (worker [] []).2.1 + 1, (worker [] []).2.2) := by
  have h := C4_start_conversation_contract
  exact ⟨h.1 ⟨403, ⟨some "c", some "s"⟩⟩ (by decide),
    h.2.1 ⟨true, ⟨201, ⟨some "c", none⟩⟩, true, true, fun _ => 0, []⟩ "q" [] (Or.inl rfl),
    h.2.2 ⟨true, ⟨201, ⟨none, some "s"⟩⟩, true, true, fun _ => 0, []⟩ "q" [] [] (Or.inr rfl)⟩

/-- Claim C7: every dequeued item — sentinel, processed question or failing
question — is acknowledged to the queue exactly once before the worker loops
or terminates (the acknowledgement count equals the number of dequeued
items); a question item always hands control to the rest of the queue with
exactly one extra acknowledgement, whatever its environment does; and a
failing per-question flow (here: token acquisition fails) leaves the shared
answers unchanged instead of aborting anything. -/
theorem C7_worker_ack_exactly_once :
    (∀ (items : List QItem) (acc : List Answer),
        (worker items acc).2.1 = consumedCount items)
    ∧ (∀ (q : String) (env : QuestionEnv) (rest : List QItem) (acc : List Answer),
        worker (QItem.question q env :: rest) acc
          = ((worker rest (process_question env q acc)).1,
             (worker rest (process_question env q acc)).2.1 + 1,
             (worker rest (process_question env q acc)).2.2))
    ∧ (∀ (q : String) (env : QuestionEnv) (acc : List Answer),
        env.tokenOk = false → process_question env q acc = acc) :=
  ⟨worker_acks, fun _ _ _ _ => rfl,
   fun q env acc h => process_question_token_fail env q acc h⟩

/-- Witness for C7: acknowledgement count on a concrete queue and a failing
token acquisition at a concrete environment. -/
theorem C7_worker_ack_exactly_once_witness :
    (worker [QItem.sentinel] []).2.1 = consumedCount [QItem.sentinel]
    ∧ process_question ⟨false, ⟨201, ⟨some "c", some "s"⟩⟩, true, true, fun _ => 0, []⟩ "q" []
        = [] := by
  have h := C7_worker_ack_exactly_once
  exact ⟨h.1 [QItem.sentinel] [],
    h.2.2 "q" ⟨false, ⟨201, ⟨some "c", some "s"⟩⟩, true, true, fun _ => 0, []⟩ [] rfl⟩

/-- Claim C3: the dispatcher's completion protocol — in the operation trace
of `workers_processing`, the queue join (which blocks until every real item
is acknowledged) is preceded by no sentinel enqueue, is followed by no real
enqueue, is followed by exactly `n_workers` sentinel enqueues and only then
by the gather of all worker tasks; the trace carries exactly `n_workers`
sentinel enqueues in total; and a worker terminates exactly when its
dequeued stream contains a sentinel, so after the gather no worker is
live. -/
theorem C3_completion_protocol (qs : List String) (n : ℕ) (ans : List Answer) :
    ((workers_processing qs n ans).count DispatchStep.enqueueSentinel = n)
    ∧ (∃ pre post, workers_processing qs n ans = pre ++ DispatchStep.joinQueue :: post
        ∧ (∀ s ∈ pre, s ≠ DispatchStep.enqueueSentinel)
        ∧ (∀ q, DispatchStep.enqueue q ∉ post)
        ∧ ∃ tail, post = List.replicate n DispatchStep.enqueueSentinel
            ++ DispatchStep.gatherWorkers :: tail)
    ∧ (∀ (items : List QItem) (acc : List Answer),
        ((worker items acc).2.2 = true ↔ QItem.sentinel ∈ items)) := by
  refine ⟨?_, ?_, worker_stop_iff⟩
  · unfold workers_processing
    rw [List.count_append, List.count_append, List.count_append, List.count_append]
    have h1 : (qs.map DispatchStep.enqueue).count DispatchStep.enqueueSentinel = 0 := by
      rw [List.count_eq_zero]
      intro hmem
      obtain ⟨x, _, hx⟩ := List.mem_map.mp hmem
      simp at hx
    have h2 : (List.replicate n DispatchStep.enqueueSentinel).count
        DispatchStep.enqueueSentinel = n := List.count_replicate_self _ _
    have h3 : ((if ans.isEmpty then ([] : List DispatchStep)
        else [DispatchStep.saveResults])).count DispatchStep.enqueueSentinel = 0 := by
      split <;> decide
    rw [h1, h2, h3]
    simp [List.count_cons, List.count_nil]
  · refine ⟨qs.map DispatchStep.enqueue ++ [DispatchStep.spawnWorkers n],
      List.replicate n DispatchStep.enqueueSentinel
        ++ DispatchStep.gatherWorkers
          :: (if ans.isEmpty then [] else [DispatchStep.saveResults]),
      ?_, ?_, ?_,
      ⟨if ans.isEmpty then [] else [DispatchStep.saveResults], rfl⟩⟩
    · simp [workers_processing]
    · intro t ht
      rcases List.mem_append.mp ht with h | h
      · obtain ⟨x, _, hx⟩ := List.mem_map.mp h
        rw [← hx]
        simp
      · rw [List.mem_singleton.mp h]
        simp
    · intro q hq
      rcases List.mem_append.mp hq with h | h
      · have := List.eq_of_mem_replicate h
        simp at this
      · rcases List.mem_cons.mp h with h | h
        · simp at h
        · split at h
          · simp at h
          · simp at h

/-- Witness for C3 at a one-question, two-worker batch and a one-sentinel
queue stream. -/
theorem C3_completion_protocol_witness :
    ((workers_processing ["a"] 2 []).count DispatchStep.enqueueSentinel = 2)
    ∧ ((worker [QItem.sentinel] []).2.2 = true ↔ QItem.sentinel ∈ [QItem.sentinel]) := by
  have h := C3_completion_protocol ["a"] 2 []
  exact ⟨h.1, h.2.2 [QItem.sentinel] []⟩

/-- Counterexample to claim C1 as stated: one question whose first matched
frame carries two non-self message activities produces two answers for a
single PendingExchange — the inner activities loop appends once per matching
activity of that frame even after the over flag is set — so the ResultSet
for a one-question batch has size 2 > 1. -/
theorem C1_counterexample :
    batch_results [("q", ⟨true, ⟨201, ⟨some "c", some "w"⟩⟩, true, true, fun _ => 0,
        [RecvEvent.frame (Frame.activities
          [ActItem.ok ⟨some "message", some "first reply", some "bot"⟩,
           ActItem.ok ⟨some "message", some "second reply", some "bot"⟩])]⟩)]
      = [⟨"q", "first reply"⟩, ⟨"q", "second reply"⟩]
    ∧ ¬ ((batch_results [("q", ⟨true, ⟨201, ⟨some "c", some "w"⟩⟩, true, true, fun _ => 0,
        [RecvEvent.frame (Frame.activities
          [ActItem.ok ⟨some "message", some "first reply", some "bot"⟩,
           ActItem.ok ⟨some "message", some "second reply", some "bot"⟩])]⟩)]).length
        ≤ 1) :=
  ⟨by decide, by decide⟩

/-- Claim C1 as amended: when every inbound frame of a question's exchange
carries at most one matching (non-self message) activity, at most one answer
is recorded for that PendingExchange; and for a batch all of whose exchanges
satisfy this, the final ResultSet size is at most the number of input
questions. -/
theorem C1_amended_resultset_bound :
    (∀ (env : QuestionEnv) (q : String),
        (∀ e ∈ env.events, frameMatchBound e = true) →
        (process_question env q []).length ≤ 1)
    ∧ (∀ batch : List (String × QuestionEnv),
        (∀ p ∈ batch, ∀ e ∈ p.2.events, frameMatchBound e = true) →
        (batch_results batch).length ≤ batch.length) := by
  constructor
  · intro env q h
    simpa using process_question_length_le env q [] h
  · intro batch h
    simpa [batch_results] using batch_foldl_length_le batch [] h

/-- Witness for the amended C1 at a one-question batch whose single frame
carries one bot reply. -/
theorem C1_amended_resultset_bound_witness :
    (process_question ⟨true, ⟨201, ⟨some "c", some "w"⟩⟩, true, true, fun _ => 0,
        [RecvEvent.frame (Frame.activities
          [ActItem.ok ⟨some "message", some "R", some "bot"⟩])]⟩ "q" []).length ≤ 1
    ∧ (batch_results [("q", ⟨true, ⟨201, ⟨some "c", some "w"⟩⟩, true, true, fun _ => 0,
        [RecvEvent.frame (Frame.activities
          [ActItem.ok ⟨some "message", some "R", some "bot"⟩])]⟩)]).length ≤ 1 := by
  have h := C1_amended_resultset_bound
  refine ⟨h.1 ⟨true, ⟨201, ⟨some "c", some "w"⟩⟩, true, true, fun _ => 0,
      [RecvEvent.frame (Frame.activities
        [ActItem.ok ⟨some "message", some "R", some "bot"⟩])]⟩ "q" (by decide), ?_⟩
  have h2 := h.2 [("q", ⟨true, ⟨201, ⟨some "c", some "w"⟩⟩, true, true, fun _ => 0,
      [RecvEvent.frame (Frame.activities
        [ActItem.ok ⟨some "message", some "R", some "bot"⟩])]⟩)] (by decide)
  simpa using h2

end DirectLine
